import Mathlib

/-!
Shallow embedding of the client-side data-synchronization and derived-view
layer of the KMS knowledge-tracking application (src/pages/papers.tsx and
src/pages/index.tsx), together with theorems settling the spec claims.

Modelling conventions:
* Timestamps (`created_at`, `updated_at`) are naturals (epoch milliseconds).
  The source stores them as ISO strings; every row written by the client has
  non-empty valid timestamps, so the truthiness guard in the timeline
  computation always passes and string-to-date parsing is modelled by the
  identity on the numeric value.
* A JavaScript `Set` in insertion order is modelled as a duplicate-free list
  built by appending each element on first encounter (`addIfAbsent`).
* A plain-object tag-count map (string keys, insertion order) is modelled as
  an association list (`bump` increments in place or appends a fresh key).
* `Math.round((x / t) * 100)` on non-negative values is modelled by exact
  rational rounding: `(200 * x + t) / (2 * t)` in natural division.
* Event handlers that touch component state are modelled as state
  transformers on an explicit record of the relevant `useState` cells, with
  the outcomes of remote calls passed in as parameters; a boolean component
  of the result records whether the remote request was actually issued.
-/

namespace KMS

inductive PaperStatus
  | read
  | unread
deriving DecidableEq, Repr

inductive WordStatus
  | mastered
  | unmastered
deriving DecidableEq, Repr

/-- The `Paper` row type (papers.tsx lines 12-21). -/
structure Paper where
  id : String
  title : String
  link : Option String
  note : Option String
  status : PaperStatus
  tags : Option (List String)
  created_at : Nat
  updated_at : Nat
deriving DecidableEq, Repr

/-- The `Word` row type (index.tsx lines 291-298). -/
structure Word where
  id : Nat
  word : String
  definition : String
  notes : String
  status : WordStatus
  created_at : Nat
deriving DecidableEq, Repr

/-- `paper.tags?.forEach` / `p.tags || []`: the tag list of a paper, empty
when the optional column is absent. -/
def tagsOf (p : Paper) : List String := p.tags.getD []

/-- `Set.add` in insertion order: append the element unless already present. -/
def addIfAbsent (acc : List String) (t : String) : List String :=
  if acc.contains t then acc else acc ++ [t]

/-- The `allTags` selector (papers.tsx lines 44-50): a `Set` populated by
per-paper, per-tag insertion, read back in insertion order. -/
def allTags (papers : List Paper) : List String :=
  papers.foldl (fun acc p => (tagsOf p).foldl addIfAbsent acc) []

/-- `Math.round((x / t) * 100)` with exact rational arithmetic
(floor of `100 * x / t + 1 / 2`). -/
def roundPct (x t : Nat) : Nat := (200 * x + t) / (2 * t)

structure Stats where
  total : Nat
  read : Nat
  unread : Nat
  readPercentage : Nat
  unreadPercentage : Nat
  uniqueTagsCount : Nat
deriving DecidableEq, Repr

/-- The `stats` selector (papers.tsx lines 53-69). -/
def stats (papers : List Paper) : Stats :=
  let total := papers.length
  let read := (papers.filter (fun p => p.status == PaperStatus.read)).length
  let unread := (papers.filter (fun p => p.status == PaperStatus.unread)).length
  let readPercentage := if 0 < total then roundPct read total else 0
  let unreadPercentage := if 0 < total then roundPct unread total else 0
  let uniqueTags := (papers.flatMap tagsOf).foldl addIfAbsent []
  { total := total
    read := read
    unread := unread
    readPercentage := readPercentage
    unreadPercentage := unreadPercentage
    uniqueTagsCount := uniqueTags.length }

/-- One step of `tagCount[tag] = (tagCount[tag] || 0) + 1` on the
insertion-ordered key/value map. -/
def bump : List (String × Nat) → String → List (String × Nat)
  | [], t => [(t, 1)]
  | (k, c) :: rest, t =>
      if k = t then (k, c + 1) :: rest else (k, c) :: bump rest t

/-- The `tagDistribution` selector (papers.tsx lines 72-80): nested
`forEach` over papers and their tags, bumping the per-tag count.
(`Object.entries(...).map(([name, count]) => ({name, count}))` reads the map
back as pairs.) -/
def tagDistribution (papers : List Paper) : List (String × Nat) :=
  papers.foldl (fun m p => (tagsOf p).foldl bump m) []

/-- Calendar-day bucket of a timestamp (`format(d, 'yyyy-MM-dd')`). -/
def dayOf (t : Nat) : Nat := t / 86400000

/-- The status-relevant timestamp, bucketed to a day:
`paper.status === 'read' ? paper.updated_at : paper.created_at`. -/
def relevantDay (p : Paper) : Nat :=
  dayOf (match p.status with
         | PaperStatus.read => p.updated_at
         | PaperStatus.unread => p.created_at)

/-- The `readingTimeline` selector (papers.tsx lines 83-102). `todayDay` is
the calendar day of `new Date()` at the time of computation; `subDays` then
`format` yields the day buckets of the trailing 30 days. -/
def readingTimeline (todayDay : Nat) (papers : List Paper) : List (Nat × Nat) :=
  let last30Days := ((List.range 30).map (fun i => todayDay - i)).reverse
  last30Days.map (fun date =>
    (date, (papers.filter (fun p => relevantDay p == date)).length))

/-- Stable insertion of a paper into a list sorted by `updated_at`
descending: placed before the first element whose key is not larger. -/
def insertByUpdated (p : Paper) : List Paper → List Paper
  | [] => [p]
  | q :: qs =>
      if q.updated_at ≤ p.updated_at then p :: q :: qs
      else q :: insertByUpdated p qs

/-- Stable sort by `updated_at` descending — the effect of
`papers.sort((a, b) => new Date(b.updated_at).getTime() - new Date(a.updated_at).getTime())`. -/
def sortByUpdatedDesc (papers : List Paper) : List Paper :=
  papers.foldr insertByUpdated []

/-- The `recentActivity` selector (papers.tsx lines 105-109).
`Array.prototype.sort` sorts the cache array itself in place and returns
that same array, so the run yields both the selected value
(`.slice(0, 5)` of the sorted array) and the cache as it stands after the
computation (the sorted array). -/
def recentActivityRun (papers : List Paper) : List Paper × List Paper :=
  let sorted := sortByUpdatedDesc papers
  (sorted.take 5, sorted)

inductive PaperFilter
  | all
  | read
  | unread
deriving DecidableEq, Repr

/-- `paper.status !== filter` compares the status string with the filter
string; they are equal exactly in these two cases. -/
def filterMatches : PaperFilter → PaperStatus → Bool
  | PaperFilter.read, PaperStatus.read => true
  | PaperFilter.unread, PaperStatus.unread => true
  | _, _ => false

/-- `selectedTag && (!paper.tags || !paper.tags.includes(selectedTag))`:
the tag guard of `filteredPapers` rejects the paper. `selectedTag` is
truthy when non-null and non-empty. -/
def tagGuardBlocks (selectedTag : Option String) (p : Paper) : Bool :=
  match selectedTag with
  | none => false
  | some t =>
      if t = "" then false
      else
        match p.tags with
        | none => true
        | some ts => !(ts.contains t)

/-- Substring test on character lists: some suffix of the haystack starts
with the pattern. -/
def strContainsAux (hay pat : List Char) : Bool :=
  (List.range (hay.length + 1)).any (fun i => pat.isPrefixOf (hay.drop i))

/-- `s.toLowerCase().includes(q.toLowerCase())`: character-wise lowercase of
both sides, then substring containment. -/
def containsCI (s q : String) : Bool :=
  strContainsAux (s.data.map Char.toLower) (q.data.map Char.toLower)

/-- The predicate inside `filteredPapers` (papers.tsx lines 176-192):
status guard, tag guard, then search guard, each an early `return false`
(or the search result) in the source. -/
def paperPred (filt : PaperFilter) (selectedTag : Option String)
    (searchQuery : String) (p : Paper) : Bool :=
  if filt ≠ PaperFilter.all ∧ filterMatches filt p.status = false then false
  else if tagGuardBlocks selectedTag p = true then false
  else if searchQuery ≠ "" then containsCI p.title searchQuery
  else true

/-- The `filteredPapers` selector (papers.tsx lines 176-192). -/
def filteredPapers (papers : List Paper) (filt : PaperFilter)
    (selectedTag : Option String) (searchQuery : String) : List Paper :=
  papers.filter (paperPred filt selectedTag searchQuery)

inductive WordFilter
  | all
  | mastered
  | unmastered
deriving DecidableEq, Repr

def wordFilterMatches : WordFilter → WordStatus → Bool
  | WordFilter.mastered, WordStatus.mastered => true
  | WordFilter.unmastered, WordStatus.unmastered => true
  | _, _ => false

/-- The predicate inside `filteredWords` (index.tsx lines 506-518). -/
def wordPred (filt : WordFilter) (searchQuery : String) (w : Word) : Bool :=
  if filt ≠ WordFilter.all ∧ wordFilterMatches filt w.status = false then false
  else if searchQuery ≠ "" then
    containsCI w.word searchQuery || containsCI w.definition searchQuery
  else true

/-- The `filteredWords` computation (index.tsx lines 506-518). -/
def filteredWords (words : List Word) (filt : WordFilter)
    (searchQuery : String) : List Word :=
  words.filter (wordPred filt searchQuery)

/-- The three spec-side predicates of the filter pipeline, stated the way
§4.4 of the spec words them. -/
def statusPass (filt : PaperFilter) (p : Paper) : Bool :=
  if filt = PaperFilter.all then true else filterMatches filt p.status

def tagPass (selectedTag : Option String) (p : Paper) : Bool :=
  match selectedTag with
  | none => true
  | some t => (tagsOf p).contains t

def searchPass (searchQuery : String) (p : Paper) : Bool :=
  containsCI p.title searchQuery

def wordStatusPass (filt : WordFilter) (w : Word) : Bool :=
  if filt = WordFilter.all then true else wordFilterMatches filt w.status

def wordSearchPass (searchQuery : String) (w : Word) : Bool :=
  containsCI w.word searchQuery || containsCI w.definition searchQuery

/-- A selected-tag state is non-degenerate: the selection, when present, is
a non-empty tag string (the source represents "no selection" by `null`;
the empty string is conflated with it by JavaScript truthiness). -/
def selOk : Option String → Prop
  | none => True
  | some t => t ≠ ""

/-- The `useState` cells of the Papers view that the mutation handlers
touch (papers.tsx lines 31-33). Edit-form and add-form cells are carried
by the handlers' parameters where they matter. -/
structure PapersState where
  papers : List Paper
  loading : Bool
  error : Option String
deriving DecidableEq, Repr

/-- `fetchPapers` (papers.tsx lines 111-121): `setLoading(true)`,
`setError(null)`, remote select, then either surface the error or replace
the cache, then `setLoading(false)`. `res` is the remote outcome. -/
def fetchPapersRun (st : PapersState) (res : Except String (List Paper)) :
    PapersState :=
  match res with
  | Except.error m => { st with loading := false, error := some m }
  | Except.ok rows => { st with papers := rows, loading := false, error := none }

/-- `toggleStatus` (papers.tsx lines 163-173): record the write error if
any, then unconditionally refetch. `writeErr` is the remote update outcome
(`none` on success), `fetchRes` the outcome of the triggered refetch. -/
def toggleStatusRun (st : PapersState) (writeErr : Option String)
    (fetchRes : Except String (List Paper)) : PapersState :=
  fetchPapersRun { st with loading := true, error := writeErr } fetchRes

/-- `deletePaper` (papers.tsx lines 240-252): return immediately when the
confirmation dialog is declined, otherwise issue the delete and refetch.
The boolean result records whether the remote delete request was issued. -/
def deletePaperRun (st : PapersState) (confirmed : Bool)
    (writeErr : Option String) (fetchRes : Except String (List Paper)) :
    PapersState × Bool :=
  if confirmed then
    (fetchPapersRun { st with loading := true, error := writeErr } fetchRes,
     true)
  else
    (st, false)

/-- `updatePaper` (papers.tsx lines 209-238): no-op without an active edit;
on write failure surface the message; on success refetch, then
`setLoading(false)` in both paths. -/
def updatePaperRun (st : PapersState) (editing : Bool)
    (writeErr : Option String) (fetchRes : Except String (List Paper)) :
    PapersState :=
  if editing then
    match writeErr with
    | some m => { st with loading := false, error := some m }
    | none =>
        let st2 := fetchPapersRun { st with loading := true, error := none }
          fetchRes
        { st2 with loading := false }
  else st

/-- `title.trim()`: strip leading and trailing whitespace. -/
def strTrim (s : String) : String :=
  ⟨((s.data.dropWhile Char.isWhitespace).reverse.dropWhile
      Char.isWhitespace).reverse⟩

/-- `addPaper` (papers.tsx lines 127-161): rejected when the trimmed title
is empty; on success the returned row is appended to the cache (the legacy
append flow); on failure the generic message is surfaced. -/
def addPaperRun (st : PapersState) (title : String)
    (insertRes : Except String Paper) : PapersState :=
  if strTrim title = "" then st
  else
    match insertRes with
    | Except.error _ =>
        { st with loading := false, error := some "Failed to add paper" }
    | Except.ok row =>
        { st with papers := st.papers ++ [row], loading := false,
                  error := none }

/-- The `useState` cells of the Words view (index.tsx lines 450-452). -/
structure WordsState where
  words : List Word
  loading : Bool
  error : Option String
deriving DecidableEq, Repr

/-- `fetchWords` (index.tsx lines 467-477). -/
def fetchWordsRun (st : WordsState) (res : Except String (List Word)) :
    WordsState :=
  match res with
  | Except.error m => { st with loading := false, error := some m }
  | Except.ok rows => { st with words := rows, loading := false, error := none }

/-- `onSubmit` (index.tsx lines 483-492): record the insert error if any,
reset the form, then refetch. -/
def onSubmitRun (st : WordsState) (insertErr : Option String)
    (fetchRes : Except String (List Word)) : WordsState :=
  fetchWordsRun { st with loading := true, error := insertErr } fetchRes

/-- `toggleStatus` for words (index.tsx lines 494-504). -/
def wordToggleRun (st : WordsState) (writeErr : Option String)
    (fetchRes : Except String (List Word)) : WordsState :=
  fetchWordsRun { st with loading := true, error := writeErr } fetchRes

/-- The add-word form values (index.tsx lines 300-304 / 458-465). -/
structure NewWordForm where
  word : String
  definition : String
  notes : String
deriving DecidableEq, Repr

/-- The zod `formSchema` (index.tsx lines 306-310): `word` must have
length at least 1; the other fields are optional. -/
def validNewWord (f : NewWordForm) : Bool := 1 ≤ f.word.length

/-- `form.handleSubmit(onSubmit)`: the resolver validates against
`formSchema`; only a valid form reaches `onSubmit` and issues the insert.
The boolean result records whether the insert request was issued. -/
def handleSubmitRun (st : WordsState) (f : NewWordForm)
    (insertErr : Option String) (fetchRes : Except String (List Word)) :
    WordsState × Bool :=
  if validNewWord f then (onSubmitRun st insertErr fetchRes, true)
  else (st, false)

/-- `newStatus = currentStatus === "read" ? "unread" : "read"`
(papers.tsx line 166). -/
def flipPaperStatus : PaperStatus → PaperStatus
  | PaperStatus.read => PaperStatus.unread
  | PaperStatus.unread => PaperStatus.read

/-- `newStatus = currentStatus === "mastered" ? "unmastered" : "mastered"`
(index.tsx line 497). -/
def flipWordStatus : WordStatus → WordStatus
  | WordStatus.mastered => WordStatus.unmastered
  | WordStatus.unmastered => WordStatus.mastered

/-- Sum of the occurrence counts of a tag histogram. -/
def sumCounts : List (String × Nat) → Nat
  | [] => 0
  | x :: rest => x.2 + sumCounts rest

/-- Compact constructor for concrete papers (link and note absent). -/
def mkPaper (i t : String) (s : PaperStatus) (tg : Option (List String))
    (c u : Nat) : Paper :=
  ⟨i, t, none, none, s, tg, c, u⟩

def pA : Paper := mkPaper "a" "A" PaperStatus.unread (some ["x"]) 0 1

def pB : Paper := mkPaper "b" "B" PaperStatus.read (some ["x", "y"]) 0 2

def w0 : Word := ⟨1, "hello", "greeting", "", WordStatus.unmastered, 0⟩

def wst0 : WordsState := ⟨[], false, none⟩

def emptyForm : NewWordForm := ⟨"", "", ""⟩

/-! ## Helper lemmas -/

theorem sumCounts_bump (m : List (String × Nat)) (t : String) :
    sumCounts (bump m t) = sumCounts m + 1 := by
  induction m with
  | nil => rfl
  | cons kc rest ih =>
      obtain ⟨k, c⟩ := kc
      by_cases h : k = t
      · simp [bump, h, sumCounts]
        omega
      · simp [bump, h, sumCounts, ih]
        omega

theorem sumCounts_foldl_bump (ts : List String) (m : List (String × Nat)) :
    sumCounts (ts.foldl bump m) = sumCounts m + ts.length := by
  induction ts generalizing m with
  | nil => simp
  | cons t ts ih =>
      simp [List.foldl_cons, ih, sumCounts_bump]
      omega

theorem foldl_addIfAbsent_flatten (ps : List Paper) (acc : List String) :
    ps.foldl (fun a p => (tagsOf p).foldl addIfAbsent a) acc =
    (ps.flatMap tagsOf).foldl addIfAbsent acc := by
  induction ps generalizing acc with
  | nil => rfl
  | cons p ps ih => simp [List.flatMap_cons, List.foldl_append, ih]

theorem filter_status_len (papers : List Paper) :
    (papers.filter (fun p => p.status == PaperStatus.read)).length +
    (papers.filter (fun p => p.status == PaperStatus.unread)).length =
    papers.length := by
  induction papers with
  | nil => rfl
  | cons p ps ih =>
      cases h : p.status <;> simp [List.filter_cons, h] <;> omega

theorem roundPct_sum (r u t : Nat) (ht : 0 < t) (h : r + u = t) :
    roundPct r t + roundPct u t = 100 ∨ roundPct r t + roundPct u t = 101 := by
  unfold roundPct
  have h2t : 0 < 2 * t := by omega
  have key : (200 * r + t) + (200 * u + t) = 101 * (2 * t) := by omega
  have hd := @Nat.add_div (200 * r + t) (200 * u + t) (2 * t) h2t
  rw [key, Nat.mul_div_cancel 101 h2t] at hd
  by_cases hle : 2 * t ≤ (200 * r + t) % (2 * t) + (200 * u + t) % (2 * t)
  · simp [hle] at hd
    omega
  · simp [hle] at hd
    omega

theorem isPrefixOf_nil_left (l : List Char) :
    ([] : List Char).isPrefixOf l = true := by
  cases l <;> rfl

theorem strContainsAux_nil (hay : List Char) : strContainsAux hay [] = true := by
  unfold strContainsAux
  exact List.any_eq_true.mpr
    ⟨0, List.mem_range.mpr (Nat.succ_pos _), isPrefixOf_nil_left _⟩

theorem containsCI_empty (s : String) : containsCI s "" = true := by
  unfold containsCI
  exact strContainsAux_nil _

theorem statusPass_of_not_block (filt : PaperFilter) (p : Paper)
    (h : ¬(filt ≠ PaperFilter.all ∧ filterMatches filt p.status = false)) :
    statusPass filt p = true := by
  unfold statusPass
  by_cases hf : filt = PaperFilter.all
  · simp [hf]
  · push_neg at h
    have := h hf
    simp [hf, this]

theorem tagGuardBlocks_eq_not_tagPass (sel : Option String) (p : Paper)
    (hsel : selOk sel) :
    tagGuardBlocks sel p = !(tagPass sel p) := by
  cases sel with
  | none => rfl
  | some t =>
      have ht : t ≠ "" := hsel
      simp only [tagGuardBlocks, tagPass, if_neg ht]
      cases htags : p.tags with
      | none => simp [tagsOf, htags]
      | some ts => simp [tagsOf, htags]

theorem paperPred_eq (filt : PaperFilter) (sel : Option String) (q : String)
    (p : Paper) (hsel : selOk sel) :
    paperPred filt sel q p =
      (statusPass filt p && tagPass sel p && searchPass q p) := by
  unfold paperPred
  split_ifs with h1 h2 h3
  · simp [statusPass, h1.1, h1.2]
  · have hs := statusPass_of_not_block filt p h1
    rw [tagGuardBlocks_eq_not_tagPass sel p hsel] at h2
    simp only [Bool.not_eq_true'] at h2
    simp [hs, h2]
  · have hs := statusPass_of_not_block filt p h1
    rw [tagGuardBlocks_eq_not_tagPass sel p hsel] at h2
    have htp : tagPass sel p = true := by
      cases htp : tagPass sel p
      · exact absurd (by simp [htp]) h2
      · rfl
    simp [hs, htp, searchPass]
  · have hs := statusPass_of_not_block filt p h1
    rw [tagGuardBlocks_eq_not_tagPass sel p hsel] at h2
    have htp : tagPass sel p = true := by
      cases htp : tagPass sel p
      · exact absurd (by simp [htp]) h2
      · rfl
    have hq : q = "" := by
      push_neg at h3
      exact h3
    simp [hs, htp, searchPass, hq, containsCI_empty]

theorem wordStatusPass_of_not_block (filt : WordFilter) (w : Word)
    (h : ¬(filt ≠ WordFilter.all ∧ wordFilterMatches filt w.status = false)) :
    wordStatusPass filt w = true := by
  unfold wordStatusPass
  by_cases hf : filt = WordFilter.all
  · simp [hf]
  · push_neg at h
    have := h hf
    simp [hf, this]

theorem wordPred_eq (filt : WordFilter) (q : String) (w : Word) :
    wordPred filt q w = (wordStatusPass filt w && wordSearchPass q w) := by
  unfold wordPred
  split_ifs with h1 h2
  · simp [wordStatusPass, h1.1, h1.2]
  · have hs := wordStatusPass_of_not_block filt w h1
    simp [hs, wordSearchPass]
  · have hs := wordStatusPass_of_not_block filt w h1
    have hq : q = "" := by
      push_neg at h2
      exact h2
    simp [hs, wordSearchPass, hq, containsCI_empty]

theorem range30_reverse_shift (k : Nat) :
    ((List.range 30).map (fun i => 29 + k - i)).reverse =
    (List.range 30).map (fun j => 29 + k - 29 + j) := by
  rw [← List.map_reverse]
  have h2 : (List.range 30).reverse =
      [29, 28, 27, 26, 25, 24, 23, 22, 21, 20, 19, 18, 17, 16, 15, 14, 13,
       12, 11, 10, 9, 8, 7, 6, 5, 4, 3, 2, 1, 0] := by decide
  have h3 : List.range 30 =
      [0, 1, 2, 3, 4, 5, 6, 7, 8, 9, 10, 11, 12, 13, 14, 15, 16, 17, 18,
       19, 20, 21, 22, 23, 24, 25, 26, 27, 28, 29] := by decide
  rw [h2, h3]
  simp only [List.map_cons, List.map_nil, List.cons.injEq, and_true]
  omega

theorem stats_total (papers : List Paper) :
    (stats papers).total = papers.length := rfl

theorem stats_read_count (papers : List Paper) :
    (stats papers).read =
    (papers.filter (fun p => p.status == PaperStatus.read)).length := rfl

theorem stats_unread_count (papers : List Paper) :
    (stats papers).unread =
    (papers.filter (fun p => p.status == PaperStatus.unread)).length := rfl

theorem stats_readPercentage (papers : List Paper) :
    (stats papers).readPercentage =
    if 0 < papers.length then
      roundPct (papers.filter (fun p => p.status == PaperStatus.read)).length
        papers.length
    else 0 := rfl

theorem stats_unreadPercentage (papers : List Paper) :
    (stats papers).unreadPercentage =
    if 0 < papers.length then
      roundPct (papers.filter (fun p => p.status == PaperStatus.unread)).length
        papers.length
    else 0 := rfl

theorem stats_uniqueTagsCount (papers : List Paper) :
    (stats papers).uniqueTagsCount =
    ((papers.flatMap tagsOf).foldl addIfAbsent []).length := rfl

/-! ## Claim theorems -/

/-- C1: the claim says every derived view leaves the cache unchanged, but
`recentActivity` calls `Array.prototype.sort` directly on the cached array,
which sorts it in place. Evaluated at the two-paper cache `[pA, pB]`
(`pA.updated_at = 1 < 2 = pB.updated_at`), the cache standing after the
computation is the reordered `[pB, pA]`, not `[pA, pB]`. -/
theorem c1_recentActivity_mutates_cache :
    (recentActivityRun [pA, pB]).2 = [pB, pA] ∧ [pB, pA] ≠ [pA, pB] :=
  ⟨rfl, by decide⟩

/-- C2: for a non-degenerate current day (at least 29 days after the
epoch), the activity timeline is exactly the 30-entry list whose `j`-th
entry is the calendar day `todayDay - 29 + j` (so it covers today and the
preceding 29 days in order) paired with the number of papers whose
status-relevant timestamp falls on that day; days without papers carry
count 0 because the filter is empty there. -/
theorem c2_timeline_shape (todayDay : Nat) (papers : List Paper)
    (h29 : 29 ≤ todayDay) :
    (readingTimeline todayDay papers).length = 30 ∧
    readingTimeline todayDay papers =
      (List.range 30).map (fun j =>
        (todayDay - 29 + j,
         (papers.filter
            (fun p => relevantDay p == todayDay - 29 + j)).length)) := by
  obtain ⟨k, rfl⟩ := Nat.exists_eq_add_of_le h29
  constructor
  · simp [readingTimeline]
  · show (((List.range 30).map (fun i => 29 + k - i)).reverse).map
      (fun date =>
        (date, (papers.filter (fun p => relevantDay p == date)).length)) = _
    rw [range30_reverse_shift, List.map_map]
    rfl

theorem c2_timeline_shape_witness :
    29 ≤ 30 ∧
    ((readingTimeline 30 [pA]).length = 30 ∧
     readingTimeline 30 [pA] =
       (List.range 30).map (fun j =>
         (30 - 29 + j,
          ([pA].filter (fun p => relevantDay p == 30 - 29 + j)).length))) :=
  ⟨by decide, c2_timeline_shape 30 [pA] (by decide)⟩

/-- C3: when the cache is empty both percentages are 0; when it is
non-empty the two rounded percentages sum to 100 up to the rounding
deviation (the sum is 100 or 101, the latter exactly when both exact
percentages end in .5). -/
theorem c3_percentages (papers : List Paper) :
    ((stats papers).total = 0 ∧ (stats papers).readPercentage = 0 ∧
      (stats papers).unreadPercentage = 0) ∨
    (0 < (stats papers).total ∧
      ((stats papers).readPercentage + (stats papers).unreadPercentage = 100 ∨
       (stats papers).readPercentage + (stats papers).unreadPercentage = 101)) := by
  rcases Nat.eq_zero_or_pos papers.length with h | h
  · left
    rw [stats_total, stats_readPercentage, stats_unreadPercentage]
    refine ⟨h, ?_, ?_⟩ <;> rw [if_neg (by omega)]
  · right
    rw [stats_total, stats_readPercentage, stats_unreadPercentage,
      if_pos h, if_pos h]
    exact ⟨h, roundPct_sum _ _ _ h (filter_status_len papers)⟩

/-- C4: membership in the filtered list is equivalent to membership in the
cache together with the three independent predicates (status filter, tag
filter when a tag is selected, case-insensitive substring search), for
papers and for words; the filter itself is a pure function of the cache. -/
theorem c4_filter_iff (papers : List Paper) (filt : PaperFilter)
    (sel : Option String) (q : String) (p : Paper)
    (words : List Word) (wfilt : WordFilter) (q2 : String) (w : Word)
    (hsel : selOk sel) :
    (p ∈ filteredPapers papers filt sel q ↔
      (p ∈ papers ∧ statusPass filt p = true ∧ tagPass sel p = true ∧
        searchPass q p = true)) ∧
    (w ∈ filteredWords words wfilt q2 ↔
      (w ∈ words ∧ wordStatusPass wfilt w = true ∧
        wordSearchPass q2 w = true)) := by
  constructor
  · simp only [filteredPapers, List.mem_filter,
      paperPred_eq filt sel q p hsel, Bool.and_eq_true, and_assoc]
  · simp only [filteredWords, List.mem_filter, wordPred_eq,
      Bool.and_eq_true, and_assoc]

theorem c4_filter_iff_witness :
    selOk (some "x") ∧
    ((pA ∈ filteredPapers [pA, pB] PaperFilter.unread (some "x") "" ↔
       (pA ∈ [pA, pB] ∧ statusPass PaperFilter.unread pA = true ∧
         tagPass (some "x") pA = true ∧ searchPass "" pA = true)) ∧
     (w0 ∈ filteredWords [w0] WordFilter.all "" ↔
       (w0 ∈ [w0] ∧ wordStatusPass WordFilter.all w0 = true ∧
         wordSearchPass "" w0 = true))) :=
  ⟨(by decide : ("x" : String) ≠ ""),
   c4_filter_iff [pA, pB] PaperFilter.unread (some "x") "" pA
     [w0] WordFilter.all "" w0 (by decide : ("x" : String) ≠ "")⟩

/-- C5 counterexample: starting from the one-paper cache `[pA]` with a
failed remote update (message "boom") followed by the refetch the handler
unconditionally triggers (which succeeds and returns the current remote
rows, here `[]`), the final state has no surfaced error at all — the
refetch cleared it — and the cache is no longer `[pA]`. This falsifies the
claim that a failed mutation surfaces the remote error and leaves the
cache as it was. -/
theorem c5_failed_write_counterexample :
    (toggleStatusRun ⟨[pA], false, none⟩ (some "boom")
      (Except.ok [])).error = none ∧
    (toggleStatusRun ⟨[pA], false, none⟩ (some "boom")
      (Except.ok [])).papers ≠ [pA] :=
  ⟨rfl, by decide⟩

/-- C5 amended: on a failed remote write, the edit mutation surfaces the
remote message and leaves the cache unchanged; the papers add mutation
leaves the cache unchanged but surfaces the generic "Failed to add paper"
message; the toggle-status, delete and add-word mutations record the
write error but then refetch — a successful refetch replaces the cache
with the fetched rows and clears the error, a failed refetch leaves the
cache unchanged and surfaces the refetch error instead. -/
theorem c5_failed_write_amended (stp : PapersState) (stw : WordsState)
    (m m2 title : String) (rows : List Paper) (wrows : List Word)
    (fr : Except String (List Paper))
    (h : strTrim title ≠ "") :
    updatePaperRun stp true (some m) fr =
      { stp with loading := false, error := some m } ∧
    (addPaperRun stp title (Except.error m)).papers = stp.papers ∧
    (addPaperRun stp title (Except.error m)).error =
      some "Failed to add paper" ∧
    toggleStatusRun stp (some m) (Except.ok rows) =
      { stp with papers := rows, loading := false, error := none } ∧
    toggleStatusRun stp (some m) (Except.error m2) =
      { stp with loading := false, error := some m2 } ∧
    deletePaperRun stp true (some m) (Except.ok rows) =
      ({ stp with papers := rows, loading := false, error := none }, true) ∧
    deletePaperRun stp true (some m) (Except.error m2) =
      ({ stp with loading := false, error := some m2 }, true) ∧
    onSubmitRun stw (some m) (Except.ok wrows) =
      { stw with words := wrows, loading := false, error := none } ∧
    onSubmitRun stw (some m) (Except.error m2) =
      { stw with loading := false, error := some m2 } := by
  refine ⟨rfl, ?_, ?_, rfl, rfl, rfl, rfl, rfl, rfl⟩ <;>
    simp [addPaperRun, h]

theorem c5_failed_write_amended_witness :
    strTrim "T" ≠ "" ∧
    (updatePaperRun ⟨[pA], false, none⟩ true (some "e1") (Except.ok []) =
       ⟨[pA], false, some "e1"⟩ ∧
     (addPaperRun ⟨[pA], false, none⟩ "T" (Except.error "e1")).papers =
       [pA] ∧
     (addPaperRun ⟨[pA], false, none⟩ "T" (Except.error "e1")).error =
       some "Failed to add paper" ∧
     toggleStatusRun ⟨[pA], false, none⟩ (some "e1") (Except.ok []) =
       ⟨[], false, none⟩ ∧
     toggleStatusRun ⟨[pA], false, none⟩ (some "e1") (Except.error "e2") =
       ⟨[pA], false, some "e2"⟩ ∧
     deletePaperRun ⟨[pA], false, none⟩ true (some "e1") (Except.ok []) =
       (⟨[], false, none⟩, true) ∧
     deletePaperRun ⟨[pA], false, none⟩ true (some "e1") (Except.error "e2") =
       (⟨[pA], false, some "e2"⟩, true) ∧
     onSubmitRun wst0 (some "e1") (Except.ok [w0]) = ⟨[w0], false, none⟩ ∧
     onSubmitRun wst0 (some "e1") (Except.error "e2") =
       ⟨[], false, some "e2"⟩) :=
  ⟨by decide,
   c5_failed_write_amended ⟨[pA], false, none⟩ wst0 "e1" "e2" "T" [] [w0]
     (Except.ok []) (by decide)⟩

/-- C6: a declined confirmation returns before anything happens — the
state is unchanged and no remote delete request is issued; the request
flag of the run equals the confirmation outcome, so the delete request is
issued exactly when the user confirmed. -/
theorem c6_delete_confirmation (st : PapersState) (c : Bool)
    (w : Option String) (f : Except String (List Paper)) :
    deletePaperRun st false w f = (st, false) ∧
    (deletePaperRun st c w f).2 = c := by
  refine ⟨rfl, ?_⟩
  cases c <;> rfl

/-- C7: the occurrence counts of the tag histogram sum to the total number
of (paper, tag) pairs across the cache. -/
theorem c7_tag_histogram_sum (papers : List Paper) :
    sumCounts (tagDistribution papers) = (papers.flatMap tagsOf).length := by
  have h : ∀ (ps : List Paper) (m : List (String × Nat)),
      sumCounts (ps.foldl (fun m2 p => (tagsOf p).foldl bump m2) m) =
      sumCounts m + (ps.flatMap tagsOf).length := by
    intro ps
    induction ps with
    | nil => intro m; simp
    | cons p ps ih =>
        intro m
        simp [List.flatMap_cons, sumCounts_foldl_bump, ih]
        omega
  have h0 := h papers []
  simpa [tagDistribution, sumCounts] using h0

/-- C8: the status-flip functions of both verticals are involutions:
toggling twice restores the original status value. -/
theorem c8_toggle_involution :
    (∀ s : PaperStatus, flipPaperStatus (flipPaperStatus s) = s) ∧
    (∀ s : WordStatus, flipWordStatus (flipWordStatus s) = s) :=
  ⟨fun s => by cases s <;> rfl, fun s => by cases s <;> rfl⟩

/-- C9: a form whose `word` field is empty fails the zod schema
(`min(1)`), so the submit handler stops before `onSubmit`: no insert
request is issued and the view state is untouched. -/
theorem c9_empty_word_rejected (st : WordsState) (f : NewWordForm)
    (ie : Option String) (fr : Except String (List Word))
    (h : f.word = "") :
    validNewWord f = false ∧ handleSubmitRun st f ie fr = (st, false) := by
  have h0 : f.word.length = 0 := by rw [h]; rfl
  have hv : validNewWord f = false := by
    unfold validNewWord
    rw [h0]
    rfl
  exact ⟨hv, by simp [handleSubmitRun, hv]⟩

theorem c9_empty_word_rejected_witness :
    emptyForm.word = "" ∧
    (validNewWord emptyForm = false ∧
     handleSubmitRun wst0 emptyForm none (Except.ok []) = (wst0, false)) :=
  ⟨rfl, c9_empty_word_rejected wst0 emptyForm none (Except.ok []) rfl⟩

/-- C10: the distinct-tag count of the `stats` selector (a `Set` over the
flattened tag lists) equals the length of the `allTags` tag set (a `Set`
populated per paper in first-encounter order). -/
theorem c10_unique_tags_agree (papers : List Paper) :
    (stats papers).uniqueTagsCount = (allTags papers).length := by
  rw [stats_uniqueTagsCount]
  simp only [allTags]
  rw [foldl_addIfAbsent_flatten]

end KMS
